import Mathlib

/-!
Verification of the transcription pipeline (transcription_pipeline.py).

The numeric core (format_time) operates on Python floats; we embed it over
the rationals, giving exact real-number semantics to the arithmetic the
source performs: true division, math.floor, the float modulo operator, and
the round builtin (round half to even).  Strings are Lean strings; the
decimal field formatting mirrors the f-string paddings such as {n:02d}.
The serializer, the directory scanner and the per-file run loop are
embedded over lists, with the fallible external collaborators (ffmpeg,
whisper, the filesystem write) modelled as Except-valued stage functions.
-/

namespace Pipeline

/-- Python float modulo for a positive divisor: a % b = a - b * floor (a / b). -/
def pyMod (a b : ℚ) : ℚ := a - b * ⌊a / b⌋

/-- The Python 3 round builtin on an exact value: round half to even. -/
def pyRound (q : ℚ) : ℤ :=
  let f := ⌊q⌋
  let r := q - (f : ℚ)
  if r < 1/2 then f
  else if 1/2 < r then f + 1
  else if f % 2 = 0 then f else f + 1

/-- Decimal representation of a natural, zero-padded on the left to width w:
the behaviour of the f-string padding {n:0wd} for a non-negative value. -/
def padNat (w : ℕ) (n : ℕ) : String :=
  let s := Nat.repr n
  if s.length < w then String.mk (List.replicate (w - s.length) '0') ++ s else s

/-- The f-string padding {n:0wd} for an integer: a sign followed by the
digits padded to width w - 1, or the padded digits when non-negative. -/
def padInt (w : ℕ) (n : ℤ) : String :=
  if n < 0 then "-" ++ padNat (w - 1) (-n).toNat else padNat w n.toNat

/-- hours = math.floor (seconds / 3600). -/
def hoursOf (s : ℚ) : ℤ := ⌊s / 3600⌋

/-- The value of the local variable seconds after the statement seconds %= 3600. -/
def rem3600 (s : ℚ) : ℚ := pyMod s 3600

/-- minutes = math.floor (seconds / 60), after the seconds %= 3600 step. -/
def minutesOf (s : ℚ) : ℤ := ⌊rem3600 s / 60⌋

/-- The value of seconds after the second reduction, seconds %= 60. -/
def rem60 (s : ℚ) : ℚ := pyMod (rem3600 s) 60

/-- milliseconds = round ((seconds - math.floor (seconds)) * 1000). -/
def msOf (s : ℚ) : ℤ := pyRound ((rem60 s - (⌊rem60 s⌋ : ℚ)) * 1000)

/-- seconds = math.floor (seconds), the whole-seconds field. -/
def secOf (s : ℚ) : ℤ := ⌊rem60 s⌋

/-- The fractional part that the milliseconds are computed from. -/
def fracOf (s : ℚ) : ℚ := rem60 s - (⌊rem60 s⌋ : ℚ)

/-- TranscriptionPipeline.format_time: convert seconds to an SRT-compatible
timestamp string, rendered as in the source f-string
"\x7bhours:02d\x7d:\x7bminutes:02d\x7d:\x7bseconds:02d\x7d,\x7bmilliseconds:03d\x7d". -/
def format_time (seconds : ℚ) : String :=
  padInt 2 (hoursOf seconds) ++ ":" ++ padInt 2 (minutesOf seconds) ++ ":" ++
    padInt 2 (secOf seconds) ++ "," ++ padInt 3 (msOf seconds)

/-- A transcription segment, the dictionary \x7bstart, end, text\x7d the
transcribe stage produces and the serializer consumes. -/
structure Segment where
  start : ℚ
  «end» : ℚ
  text : String

/-- One subtitle block as written by generate_subtitle_file for a segment:
index line, start --> end timestamp line, the raw text, then a blank line. -/
def srtBlock (index : ℕ) (segment : Segment) : String :=
  Nat.repr index ++ "\n" ++ format_time segment.start ++ " --> " ++
    format_time segment.«end» ++ "\n" ++ segment.text ++ "\n\n"

/-- The enumerate (segments, start := 1) pairing of the serializer loop. -/
def segBlocks (segments : List Segment) : List (ℕ × Segment) :=
  segments.enum.map (fun p => (p.1 + 1, p.2))

/-- The content written by TranscriptionPipeline.generate_subtitle_file:
one srtBlock per segment, indices assigned by position starting at 1. -/
def generate_subtitle (segments : List Segment) : String :=
  String.join ((segBlocks segments).map (fun p => srtBlock p.1 p.2))

/-- Python str.lower, modelled character by character. -/
def strLower (f : String) : String := String.mk (f.data.map Char.toLower)

/-- Python str.endswith for a single suffix: a suffix check on the
character sequence. -/
def strEndsWith (f suffix : String) : Bool :=
  List.isSuffixOf suffix.data f.data

/-- The extension tuple of the scanner in TranscriptionPipeline.run. -/
def videoExtensions : List String := [".mp4", ".mov", ".mkv", ".avi"]

/-- The scanner predicate: f.lower().endswith((".mp4", ".mov", ".mkv", ".avi")). -/
def isVideoFile (f : String) : Bool :=
  videoExtensions.any (fun e => strEndsWith (strLower f) e)

/-- The directory scan in TranscriptionPipeline.run: keep the names that
satisfy the extension predicate, joined to the input directory. -/
def listVideos (input_dir : String) (files : List String) : List String :=
  (files.filter (fun f => isVideoFile f)).map (fun f => input_dir ++ "/" ++ f)

/-- Spec-side predicate for the scanner: the filename suffix matches one of
the recognized video extensions case-insensitively. -/
def matchesVideoExt (f : String) : Bool :=
  videoExtensions.any (fun e => strEndsWith (strLower f) (strLower e))

/-- The fallible per-file stages of the pipeline: audio extraction,
transcription, and the subtitle file write.  Each may fail, modelling the
exceptions the source re-raises out of extract_audio, transcribe and
generate_subtitle_file. -/
structure Stages where
  extract_audio : String → Except String String
  transcribe : String → Except String (List Segment)
  write_subtitle : String → String → Except String String

/-- The body of the per-video iteration in TranscriptionPipeline.run:
extract audio, transcribe, write the subtitle content. -/
def processVideo (st : Stages) (video : String) : Except String String := do
  let audio ← st.extract_audio video
  let segments ← st.transcribe audio
  st.write_subtitle video (generate_subtitle segments)

/-- The run loop: every video is processed; a failure is caught, recorded
against its video, and the loop continues with the next video. -/
def runLoop (st : Stages) (videos : List String) : List (String × Except String String) :=
  videos.map (fun v => (v, processVideo st v))

/-- Concrete stages where extraction fails for a.mp4 and succeeds for b.mp4. -/
def witStages : Stages where
  extract_audio := fun v => if v = "a.mp4" then Except.error "ffmpeg failed" else Except.ok "b.wav"
  transcribe := fun _ => Except.ok []
  write_subtitle := fun _ _ => Except.ok "b.srt"

/-- The numeric value of a decimal digit character. -/
def dDigit (c : Char) : ℕ := c.toNat - 48

/-- The value of a two-digit decimal field. -/
def decode2 (l : List Char) : ℕ :=
  match l with
  | [a, b] => 10 * dDigit a + dDigit b
  | _ => 0

/-- The value of a three-digit decimal field. -/
def decode3 (l : List Char) : ℕ :=
  match l with
  | [a, b, c] => 100 * dDigit a + 10 * dDigit b + dDigit c
  | _ => 0

/-- Whether a string matches the pattern HH:MM:SS,mmm: twelve characters,
separators at the fixed positions, decimal digits everywhere else. -/
def matchesPattern (t : String) : Bool :=
  match t.data with
  | [a, b, c, d, e, f, g, h, i, j, k, l] =>
      a.isDigit && b.isDigit && (c == ':') && d.isDigit && e.isDigit && (f == ':') &&
        g.isDigit && h.isDigit && (i == ',') && j.isDigit && k.isDigit && l.isDigit
  | _ => false

/-- Parse an HH:MM:SS,mmm string back into seconds, as
hours * 3600 + minutes * 60 + seconds + milliseconds / 1000. -/
def parseTimestamp (t : String) : ℚ :=
  match t.data with
  | [a, b, _, c, d, _, e, f, _, g, h, i] =>
      (decode2 [a, b] : ℚ) * 3600 + (decode2 [c, d] : ℚ) * 60 + (decode2 [e, f] : ℚ) +
        (decode3 [g, h, i] : ℚ) / 1000
  | _ => 0

/-! Concrete evaluations of the four fields, used to evaluate format_time at
the spec's sample inputs. -/

theorem hoursOf_zero : hoursOf 0 = 0 := by norm_num [hoursOf]

theorem minutesOf_zero : minutesOf 0 = 0 := by norm_num [minutesOf, rem3600, pyMod]

theorem secOf_zero : secOf 0 = 0 := by norm_num [secOf, rem60, rem3600, pyMod]

theorem msOf_zero : msOf 0 = 0 := by norm_num [msOf, pyRound, rem60, rem3600, pyMod]

theorem format_time_zero : format_time 0 = "00:00:00,000" := by
  unfold format_time
  rw [hoursOf_zero, minutesOf_zero, secOf_zero, msOf_zero]
  decide

theorem hoursOf_one : hoursOf 1 = 0 := by norm_num [hoursOf]

theorem minutesOf_one : minutesOf 1 = 0 := by norm_num [minutesOf, rem3600, pyMod]

theorem secOf_one : secOf 1 = 1 := by norm_num [secOf, rem60, rem3600, pyMod]

theorem msOf_one : msOf 1 = 0 := by norm_num [msOf, pyRound, rem60, rem3600, pyMod]

theorem format_time_one : format_time 1 = "00:00:01,000" := by
  unfold format_time
  rw [hoursOf_one, minutesOf_one, secOf_one, msOf_one]
  decide

theorem hoursOf_ex : hoursOf (3661.5 : ℚ) = 1 := by norm_num [hoursOf]

theorem minutesOf_ex : minutesOf (3661.5 : ℚ) = 1 := by
  norm_num [minutesOf, rem3600, pyMod]

theorem secOf_ex : secOf (3661.5 : ℚ) = 1 := by norm_num [secOf, rem60, rem3600, pyMod]

theorem msOf_ex : msOf (3661.5 : ℚ) = 500 := by
  norm_num [msOf, pyRound, rem60, rem3600, pyMod]

theorem format_time_ex : format_time (3661.5 : ℚ) = "01:01:01,500" := by
  unfold format_time
  rw [hoursOf_ex, minutesOf_ex, secOf_ex, msOf_ex]
  decide

theorem hoursOf_edge : hoursOf (59.9996 : ℚ) = 0 := by norm_num [hoursOf]

theorem minutesOf_edge : minutesOf (59.9996 : ℚ) = 0 := by
  norm_num [minutesOf, rem3600, pyMod]

theorem secOf_edge : secOf (59.9996 : ℚ) = 59 := by
  norm_num [secOf, rem60, rem3600, pyMod]

theorem msOf_edge : msOf (59.9996 : ℚ) = 1000 := by
  norm_num [msOf, pyRound, rem60, rem3600, pyMod]

theorem format_time_edge : format_time (59.9996 : ℚ) = "00:00:59,1000" := by
  unfold format_time
  rw [hoursOf_edge, minutesOf_edge, secOf_edge, msOf_edge]
  decide

/-! General properties of the modulo and rounding primitives. -/

theorem pyMod_eq_mul_fract (a b : ℚ) (hb : b ≠ 0) :
    pyMod a b = b * Int.fract (a / b) := by
  unfold pyMod Int.fract
  have hba : b * (a / b) = a := by field_simp
  rw [mul_sub, hba]

theorem pyMod_nonneg (a b : ℚ) (hb : 0 < b) : 0 ≤ pyMod a b := by
  rw [pyMod_eq_mul_fract a b hb.ne']
  exact mul_nonneg hb.le (Int.fract_nonneg _)

theorem pyMod_lt (a b : ℚ) (hb : 0 < b) : pyMod a b < b := by
  rw [pyMod_eq_mul_fract a b hb.ne']
  calc b * Int.fract (a / b) < b * 1 :=
        mul_lt_mul_of_pos_left (Int.fract_lt_one _) hb
    _ = b := mul_one b

theorem pyRound_ge_floor (q : ℚ) : ⌊q⌋ ≤ pyRound q := by
  unfold pyRound
  dsimp only
  split_ifs <;> omega

theorem pyRound_le_floor_add_one (q : ℚ) : pyRound q ≤ ⌊q⌋ + 1 := by
  unfold pyRound
  dsimp only
  split_ifs <;> omega

theorem pyRound_nonneg (q : ℚ) (hq : 0 ≤ q) : 0 ≤ pyRound q := by
  have h := Int.floor_nonneg.2 hq
  have := pyRound_ge_floor q
  omega

theorem abs_pyRound_sub (q : ℚ) : |(pyRound q : ℚ) - q| ≤ 1/2 := by
  have hle : (⌊q⌋ : ℚ) ≤ q := Int.floor_le q
  have hlt : q < (⌊q⌋ : ℚ) + 1 := Int.lt_floor_add_one q
  unfold pyRound
  dsimp only
  split_ifs with hA hB hC
  · rw [abs_le]
    constructor <;> linarith
  · rw [abs_le]
    push_cast
    constructor <;> linarith
  · rw [abs_le]
    constructor <;> linarith
  · rw [abs_le]
    push_cast
    constructor <;> linarith

theorem pyRound_nearest (q : ℚ) (k : ℤ) :
    |(pyRound q : ℚ) - q| ≤ |(k : ℚ) - q| := by
  by_cases hk : k = pyRound q
  · rw [hk]
  · have hne : k - pyRound q ≠ 0 := sub_ne_zero.2 hk
    have h1 : (1 : ℤ) ≤ |k - pyRound q| := Int.one_le_abs hne
    have h1Q : (1 : ℚ) ≤ |(k : ℚ) - (pyRound q : ℚ)| := by
      have : ((|k - pyRound q| : ℤ) : ℚ) = |(k : ℚ) - (pyRound q : ℚ)| := by
        push_cast
        ring_nf
      rw [← this]
      exact_mod_cast h1
    have h2 := abs_pyRound_sub q
    have h3 : |(k : ℚ) - (pyRound q : ℚ)| ≤ |(k : ℚ) - q| + |q - (pyRound q : ℚ)| :=
      abs_sub_le _ _ _
    have h4 : |q - (pyRound q : ℚ)| = |(pyRound q : ℚ) - q| := abs_sub_comm _ _
    linarith

/-! Bounds on the four timestamp fields. -/

theorem hoursOf_nonneg (s : ℚ) (h : 0 ≤ s) : 0 ≤ hoursOf s :=
  Int.floor_nonneg.2 (div_nonneg h (by norm_num))

theorem hoursOf_lt_24 (s : ℚ) (h : s < 86400) : hoursOf s < 24 := by
  apply Int.floor_lt.2
  push_cast
  rw [div_lt_iff₀ (by norm_num : (0:ℚ) < 3600)]
  linarith

theorem rem3600_nonneg (s : ℚ) : 0 ≤ rem3600 s :=
  pyMod_nonneg s 3600 (by norm_num)

theorem rem3600_lt (s : ℚ) : rem3600 s < 3600 :=
  pyMod_lt s 3600 (by norm_num)

theorem minutesOf_nonneg (s : ℚ) : 0 ≤ minutesOf s :=
  Int.floor_nonneg.2 (div_nonneg (rem3600_nonneg s) (by norm_num))

theorem minutesOf_lt (s : ℚ) : minutesOf s < 60 := by
  apply Int.floor_lt.2
  push_cast
  rw [div_lt_iff₀ (by norm_num : (0:ℚ) < 60)]
  have := rem3600_lt s
  linarith

theorem rem60_nonneg (s : ℚ) : 0 ≤ rem60 s :=
  pyMod_nonneg _ 60 (by norm_num)

theorem rem60_lt (s : ℚ) : rem60 s < 60 :=
  pyMod_lt _ 60 (by norm_num)

theorem secOf_nonneg (s : ℚ) : 0 ≤ secOf s :=
  Int.floor_nonneg.2 (rem60_nonneg s)

theorem secOf_lt (s : ℚ) : secOf s < 60 := by
  apply Int.floor_lt.2
  push_cast
  exact rem60_lt s

theorem fracOf_nonneg (s : ℚ) : 0 ≤ fracOf s := by
  have h : fracOf s = Int.fract (rem60 s) := rfl
  rw [h]
  exact Int.fract_nonneg _

theorem fracOf_lt_one (s : ℚ) : fracOf s < 1 := by
  have h : fracOf s = Int.fract (rem60 s) := rfl
  rw [h]
  exact Int.fract_lt_one _

theorem msOf_eq_pyRound (s : ℚ) : msOf s = pyRound (fracOf s * 1000) := rfl

theorem msOf_nonneg (s : ℚ) : 0 ≤ msOf s :=
  pyRound_nonneg _ (mul_nonneg (fracOf_nonneg s) (by norm_num))

theorem msOf_le_1000 (s : ℚ) : msOf s ≤ 1000 := by
  have h1 : fracOf s * 1000 < 1000 := by
    have := fracOf_lt_one s
    nlinarith
  have h2 : ⌊fracOf s * 1000⌋ < 1000 := by
    apply Int.floor_lt.2
    push_cast
    exact h1
  have h3 := pyRound_le_floor_add_one (fracOf s * 1000)
  rw [msOf_eq_pyRound]
  omega

/-- The floor-division decomposition recomposes to the input. -/
theorem fields_decompose (s : ℚ) :
    (hoursOf s : ℚ) * 3600 + (minutesOf s : ℚ) * 60 + (secOf s : ℚ) + fracOf s = s := by
  unfold hoursOf minutesOf secOf fracOf rem60 rem3600 pyMod
  ring

/-! Correctness of the zero-padded decimal rendering on the ranges the
fields inhabit, established by exhaustive evaluation. -/

theorem pad2_spec : ∀ n < 100, (padNat 2 n).data.length = 2 ∧
    ((padNat 2 n).data.all Char.isDigit) = true ∧ decode2 (padNat 2 n).data = n := by
  decide

set_option maxHeartbeats 2000000 in
set_option maxRecDepth 100000 in
theorem pad3_spec : ∀ n < 1000, (padNat 3 n).data.length = 3 ∧
    ((padNat 3 n).data.all Char.isDigit) = true ∧ decode3 (padNat 3 n).data = n := by
  decide

theorem string_length_append (x y : String) :
    (x ++ y).length = x.length + y.length := by
  show (x ++ y).data.length = x.data.length + y.data.length
  rw [String.data_append, List.length_append]

theorem padNat_length_ge (w n : ℕ) : w ≤ (padNat w n).length := by
  unfold padNat
  dsimp only
  split_ifs with h
  · rw [string_length_append]
    have hr : (String.mk (List.replicate (w - (Nat.repr n).length) '0')).length
        = w - (Nat.repr n).length := List.length_replicate _ _
    omega
  · omega

theorem padInt_of_nonneg (w : ℕ) (n : ℤ) (h : 0 ≤ n) :
    padInt w n = padNat w n.toNat :=
  if_neg (not_lt.2 h)

/-- Under the bounds the claims assume, the characters of the formatted
timestamp are the decimal renderings of the four fields. -/
theorem format_time_data (s : ℚ) (h0 : 0 ≤ s) (hh : hoursOf s < 100)
    (hms : msOf s < 1000) :
    ∃ a b c d e f g h i : Char,
      (format_time s).data = [a, b, ':', c, d, ':', e, f, ',', g, h, i] ∧
      decode2 [a, b] = (hoursOf s).toNat ∧
      decode2 [c, d] = (minutesOf s).toNat ∧
      decode2 [e, f] = (secOf s).toNat ∧
      decode3 [g, h, i] = (msOf s).toNat ∧
      (a.isDigit && b.isDigit && c.isDigit && d.isDigit && e.isDigit && f.isDigit &&
        g.isDigit && h.isDigit && i.isDigit) = true := by
  have hh0 := hoursOf_nonneg s h0
  have hhn : (hoursOf s).toNat < 100 := by omega
  have hm0 := minutesOf_nonneg s
  have hmlt := minutesOf_lt s
  have hmn : (minutesOf s).toNat < 100 := by omega
  have hs0 := secOf_nonneg s
  have hslt := secOf_lt s
  have hsn : (secOf s).toNat < 100 := by omega
  have hms0 := msOf_nonneg s
  have hmsn : (msOf s).toNat < 1000 := by omega
  obtain ⟨hl1, hd1, hc1⟩ := pad2_spec _ hhn
  obtain ⟨a, b, hab⟩ := List.length_eq_two.1 hl1
  obtain ⟨hl2, hd2, hc2⟩ := pad2_spec _ hmn
  obtain ⟨c, d, hcd⟩ := List.length_eq_two.1 hl2
  obtain ⟨hl3, hd3, hc3⟩ := pad2_spec _ hsn
  obtain ⟨e, f, hef⟩ := List.length_eq_two.1 hl3
  obtain ⟨hl4, hd4, hc4⟩ := pad3_spec _ hmsn
  obtain ⟨g, h, i, hghi⟩ := List.length_eq_three.1 hl4
  rw [hab] at hd1 hc1
  rw [hcd] at hd2 hc2
  rw [hef] at hd3 hc3
  rw [hghi] at hd4 hc4
  simp only [List.all, Bool.and_true, Bool.and_eq_true] at hd1 hd2 hd3 hd4
  refine ⟨a, b, c, d, e, f, g, h, i, ?_, hc1, hc2, hc3, hc4, ?_⟩
  · unfold format_time
    rw [padInt_of_nonneg 2 _ hh0, padInt_of_nonneg 2 _ hm0, padInt_of_nonneg 2 _ hs0,
      padInt_of_nonneg 3 _ hms0]
    simp [String.data_append, hab, hcd, hef, hghi]
  · simp only [Bool.and_eq_true]
    tauto

/-! The claim theorems. -/

/-- C1 (counterexample): 59.9996 lies in [0, 86400) yet the formatted
timestamp does not match HH:MM:SS,mmm — the milliseconds field of
"00:00:59,1000" has four digits. -/
theorem format_time_pattern_counterexample :
    (0 ≤ (59.9996 : ℚ) ∧ (59.9996 : ℚ) < 86400) ∧
    matchesPattern (format_time (59.9996 : ℚ)) = false := by
  refine ⟨⟨by norm_num, by norm_num⟩, ?_⟩
  rw [format_time_edge]
  decide

/-- C1 (amended): for 0 ≤ s < 86400 whose milliseconds round below 1000,
format_time s matches HH:MM:SS,mmm and parsing it back as
hours * 3600 + minutes * 60 + seconds + milliseconds / 1000 recovers s to
within one millisecond. -/
theorem format_time_roundtrip_amended (s : ℚ) (h0 : 0 ≤ s) (h86 : s < 86400)
    (hms : msOf s < 1000) :
    matchesPattern (format_time s) = true ∧
    |parseTimestamp (format_time s) - s| ≤ 1/1000 := by
  have hh : hoursOf s < 100 := lt_trans (hoursOf_lt_24 s h86) (by norm_num)
  obtain ⟨a, b, c, d, e, f, g, h, i, hdata, hc1, hc2, hc3, hc4, hdig⟩ :=
    format_time_data s h0 hh hms
  simp only [Bool.and_eq_true] at hdig
  obtain ⟨⟨⟨⟨⟨⟨⟨⟨ha, hb⟩, hcD⟩, hd⟩, he⟩, hf⟩, hg⟩, hhD⟩, hi⟩ := hdig
  constructor
  · unfold matchesPattern
    rw [hdata]
    simp [ha, hb, hcD, hd, he, hf, hg, hhD, hi]
  · have hparse : parseTimestamp (format_time s)
        = (decode2 [a, b] : ℚ) * 3600 + (decode2 [c, d] : ℚ) * 60 + (decode2 [e, f] : ℚ)
          + (decode3 [g, h, i] : ℚ) / 1000 := by
      unfold parseTimestamp
      rw [hdata]
    rw [hparse, hc1, hc2, hc3, hc4]
    have e1 : (((hoursOf s).toNat : ℕ) : ℚ) = ((hoursOf s : ℤ) : ℚ) := by
      exact_mod_cast Int.toNat_of_nonneg (hoursOf_nonneg s h0)
    have e2 : (((minutesOf s).toNat : ℕ) : ℚ) = ((minutesOf s : ℤ) : ℚ) := by
      exact_mod_cast Int.toNat_of_nonneg (minutesOf_nonneg s)
    have e3 : (((secOf s).toNat : ℕ) : ℚ) = ((secOf s : ℤ) : ℚ) := by
      exact_mod_cast Int.toNat_of_nonneg (secOf_nonneg s)
    have e4 : (((msOf s).toNat : ℕ) : ℚ) = ((msOf s : ℤ) : ℚ) := by
      exact_mod_cast Int.toNat_of_nonneg (msOf_nonneg s)
    rw [e1, e2, e3, e4]
    have hdec := fields_decompose s
    have habs : |(msOf s : ℚ) - fracOf s * 1000| ≤ 1/2 := by
      rw [msOf_eq_pyRound]
      exact abs_pyRound_sub (fracOf s * 1000)
    have hkey : (hoursOf s : ℚ) * 3600 + (minutesOf s : ℚ) * 60 + (secOf s : ℚ)
        + (msOf s : ℚ) / 1000 - s = ((msOf s : ℚ) - fracOf s * 1000) / 1000 := by
      field_simp
      linarith
    rw [hkey, abs_div, abs_of_pos (by norm_num : (0:ℚ) < 1000)]
    linarith

theorem ex_nonneg : (0:ℚ) ≤ (3661.5 : ℚ) := by norm_num

theorem ex_lt_day : (3661.5 : ℚ) < 86400 := by norm_num

theorem ex_msOf_lt : msOf (3661.5 : ℚ) < 1000 := by
  rw [msOf_ex]
  decide

/-- Witness for the amended C1 at input 3661.5. -/
theorem format_time_roundtrip_amended_witness :
    matchesPattern (format_time (3661.5 : ℚ)) = true ∧
    |parseTimestamp (format_time (3661.5 : ℚ)) - (3661.5 : ℚ)| ≤ 1/1000 :=
  format_time_roundtrip_amended (3661.5 : ℚ) ex_nonneg ex_lt_day ex_msOf_lt

/-- C2: format_time does not carry a rounded-up 1000 milliseconds into the
seconds field: format_time (59.9996) is "00:00:59,1000", not "00:01:00,000". -/
theorem format_time_no_carry :
    format_time (59.9996 : ℚ) = "00:00:59,1000" ∧
    format_time (59.9996 : ℚ) ≠ "00:01:00,000" := by
  refine ⟨format_time_edge, ?_⟩
  rw [format_time_edge]
  decide

/-- C3: for every non-negative input, format_time decomposes the input by
floor division with remainder, first by 3600 then by 60, with the floor as
the whole-seconds field and the milliseconds a nearest integer to the
fractional remainder times 1000; format_time 0 = "00:00:00,000" and
format_time 3661.5 = "01:01:01,500". -/
theorem format_time_decomposition (s : ℚ) (_h0 : 0 ≤ s) :
    ((hoursOf s : ℚ) * 3600 + (minutesOf s : ℚ) * 60 + (secOf s : ℚ) + fracOf s = s ∧
      0 ≤ minutesOf s ∧ minutesOf s < 60 ∧ 0 ≤ secOf s ∧ secOf s < 60 ∧
      0 ≤ fracOf s ∧ fracOf s < 1 ∧
      (∀ k : ℤ, |(msOf s : ℚ) - fracOf s * 1000| ≤ |(k : ℚ) - fracOf s * 1000|)) ∧
    format_time 0 = "00:00:00,000" ∧ format_time (3661.5 : ℚ) = "01:01:01,500" := by
  refine ⟨⟨fields_decompose s, minutesOf_nonneg s, minutesOf_lt s, secOf_nonneg s,
    secOf_lt s, fracOf_nonneg s, fracOf_lt_one s, ?_⟩, format_time_zero, format_time_ex⟩
  intro k
  rw [msOf_eq_pyRound]
  exact pyRound_nearest (fracOf s * 1000) k

/-- Witness for C3 at input 0. -/
theorem format_time_decomposition_witness :
    ((hoursOf 0 : ℚ) * 3600 + (minutesOf 0 : ℚ) * 60 + (secOf 0 : ℚ) + fracOf 0 = 0 ∧
      0 ≤ minutesOf 0 ∧ minutesOf 0 < 60 ∧ 0 ≤ secOf 0 ∧ secOf 0 < 60 ∧
      0 ≤ fracOf 0 ∧ fracOf 0 < 1 ∧
      (∀ k : ℤ, |(msOf 0 : ℚ) - fracOf 0 * 1000| ≤ |(k : ℚ) - fracOf 0 * 1000|)) ∧
    format_time 0 = "00:00:00,000" ∧ format_time (3661.5 : ℚ) = "01:01:01,500" :=
  format_time_decomposition 0 (le_refl 0)

/-- C4: the serialized content for the single segment (0, 1, "Hi") is the
exact four-line block with its trailing blank-line separator. -/
theorem generate_subtitle_single_block :
    generate_subtitle [{ start := 0, «end» := 1, text := "Hi" }]
      = "1\n00:00:00,000 --> 00:00:01,000\nHi\n\n" := by
  have h : generate_subtitle [{ start := 0, «end» := 1, text := "Hi" }]
      = srtBlock 1 { start := 0, «end» := 1, text := "Hi" } := rfl
  rw [h]
  show Nat.repr 1 ++ "\n" ++ format_time 0 ++ " --> " ++ format_time 1 ++ "\n" ++
    "Hi" ++ "\n\n" = "1\n00:00:00,000 --> 00:00:01,000\nHi\n\n"
  rw [format_time_zero, format_time_one]
  decide

/-- C5: the serialized document has exactly one block per segment, and the
index sequence is 1..N by position, independent of every segment field. -/
theorem generate_subtitle_indices :
    (∀ segments : List Segment,
      (segBlocks segments).map Prod.fst = List.range' 1 segments.length ∧
      (segBlocks segments).length = segments.length ∧
      generate_subtitle segments
        = String.join ((segBlocks segments).map (fun p => srtBlock p.1 p.2))) ∧
    (∀ s1 s2 : List Segment, s1.length = s2.length →
      (segBlocks s1).map Prod.fst = (segBlocks s2).map Prod.fst) := by
  have key : ∀ segments : List Segment,
      (segBlocks segments).map Prod.fst = List.range' 1 segments.length := by
    intro segments
    have h1 : (segBlocks segments).map Prod.fst
        = segments.enum.map (fun p => p.1 + 1) := by
      unfold segBlocks
      rw [List.map_map]
      rfl
    have h2 : segments.enum.map (fun p : ℕ × Segment => p.1 + 1)
        = (segments.enum.map Prod.fst).map (fun n => 1 + n) := by
      rw [List.map_map]
      exact List.map_congr_left (fun p _ => Nat.add_comm p.1 1)
    rw [h1, h2, List.enum_map_fst, ← List.range'_eq_map_range]
  constructor
  · intro segments
    refine ⟨key segments, ?_, rfl⟩
    unfold segBlocks
    rw [List.length_map, List.enum_length]
  · intro s1 s2 h
    rw [key s1, key s2, h]

/-- Witness for C5 on concrete segment lists of equal length. -/
theorem generate_subtitle_indices_witness :
    (segBlocks []).map Prod.fst = List.range' 1 (List.length ([] : List Segment)) ∧
    (segBlocks [{ start := 0, «end» := 1, text := "Hi" }]).map Prod.fst
      = (segBlocks [{ start := 2, «end» := 3, text := "Yo" }]).map Prod.fst :=
  ⟨(generate_subtitle_indices.1 []).1, generate_subtitle_indices.2 _ _ rfl⟩

/-- C6: serializing the empty segment sequence succeeds and produces the
empty content, a document with zero blocks. -/
theorem generate_subtitle_empty : generate_subtitle [] = "" := rfl

/-- C7: the scanner keeps exactly the filenames whose suffix matches one of
.mp4, .mov, .mkv, .avi case-insensitively; on a directory with extensions
.mp4, .txt, .MOV, .avi it yields the .mp4, .MOV and .avi paths only. -/
theorem scanner_video_extensions :
    (∀ f : String, isVideoFile f = matchesVideoExt f) ∧
    listVideos "dir" ["a.mp4", "b.txt", "c.MOV", "d.avi"]
      = ["dir/a.mp4", "dir/c.MOV", "dir/d.avi"] := by
  constructor
  · intro f
    have e1 : strLower ".mp4" = ".mp4" := by decide
    have e2 : strLower ".mov" = ".mov" := by decide
    have e3 : strLower ".mkv" = ".mkv" := by decide
    have e4 : strLower ".avi" = ".avi" := by decide
    simp [isVideoFile, matchesVideoExt, videoExtensions, e1, e2, e3, e4]
  · decide

/-- Witness for C7 at a concrete filename. -/
theorem scanner_video_extensions_witness :
    isVideoFile "c.MOV" = matchesVideoExt "c.MOV" ∧
    listVideos "dir" ["a.mp4", "b.txt", "c.MOV", "d.avi"]
      = ["dir/a.mp4", "dir/c.MOV", "dir/d.avi"] :=
  ⟨scanner_video_extensions.1 "c.MOV", scanner_video_extensions.2⟩

theorem except_bind_error {α β : Type} (e : String) (f : α → Except String β) :
    (Except.error e : Except String α) >>= f = Except.error e := rfl

theorem except_bind_ok {α β : Type} (a : α) (f : α → Except String β) :
    (Except.ok a : Except String α) >>= f = f a := rfl

/-- C8: a stage failure is contained to its own file: when extraction fails
for A but every stage succeeds for B, the run records the error against A,
still produces B's output, and completes over the whole list. -/
theorem run_continues_after_failure (st : Stages) (A B e audio out : String)
    (segments : List Segment)
    (hA : st.extract_audio A = Except.error e)
    (hB : st.extract_audio B = Except.ok audio)
    (hT : st.transcribe audio = Except.ok segments)
    (hW : st.write_subtitle B (generate_subtitle segments) = Except.ok out) :
    runLoop st [A, B] = [(A, Except.error e), (B, Except.ok out)] := by
  simp [runLoop, processVideo, hA, hB, hT, hW, except_bind_error, except_bind_ok]

/-- Witness for C8 with concrete stages failing on a.mp4 only. -/
theorem run_continues_after_failure_witness :
    runLoop witStages ["a.mp4", "b.mp4"]
      = [("a.mp4", Except.error "ffmpeg failed"), ("b.mp4", Except.ok "b.srt")] :=
  run_continues_after_failure witStages "a.mp4" "b.mp4" "ffmpeg failed" "b.wav" "b.srt"
    [] rfl rfl rfl rfl

/-- C9: format_time is total on non-negative inputs: it always produces a
(non-empty, at least twelve character) string, with no failure path. -/
theorem format_time_total (s : ℚ) (h0 : 0 ≤ s) :
    12 ≤ (format_time s).length ∧ format_time s ≠ "" := by
  have hlen : 12 ≤ (format_time s).length := by
    unfold format_time
    rw [padInt_of_nonneg 2 _ (hoursOf_nonneg s h0), padInt_of_nonneg 2 _ (minutesOf_nonneg s),
      padInt_of_nonneg 2 _ (secOf_nonneg s), padInt_of_nonneg 3 _ (msOf_nonneg s)]
    rw [string_length_append, string_length_append, string_length_append,
      string_length_append, string_length_append, string_length_append]
    have h1 := padNat_length_ge 2 (hoursOf s).toNat
    have h2 := padNat_length_ge 2 (minutesOf s).toNat
    have h3 := padNat_length_ge 2 (secOf s).toNat
    have h4 := padNat_length_ge 3 (msOf s).toNat
    have hc1 : (":" : String).length = 1 := rfl
    have hc2 : ("," : String).length = 1 := rfl
    omega
  refine ⟨hlen, ?_⟩
  intro h
  rw [h] at hlen
  exact absurd hlen (by decide)

/-- Witness for C9 at input 0. -/
theorem format_time_total_witness :
    12 ≤ (format_time 0).length ∧ format_time 0 ≠ "" :=
  format_time_total 0 (le_refl 0)

/-- C10: for every non-negative input the minutes and seconds fields lie in
0..59 and render as exactly two digits; the milliseconds lie in 0..1000 and
do reach 1000; the hours field is unbounded (it attains every natural). -/
theorem format_time_field_bounds (s : ℚ) (_h0 : 0 ≤ s) :
    (0 ≤ minutesOf s ∧ minutesOf s < 60 ∧ 0 ≤ secOf s ∧ secOf s < 60 ∧
      (padInt 2 (minutesOf s)).length = 2 ∧ (padInt 2 (secOf s)).length = 2 ∧
      0 ≤ msOf s ∧ msOf s ≤ 1000) ∧
    msOf (59.9996 : ℚ) = 1000 ∧
    (∀ n : ℕ, hoursOf ((n : ℚ) * 3600) = (n : ℤ)) := by
  refine ⟨⟨minutesOf_nonneg s, minutesOf_lt s, secOf_nonneg s, secOf_lt s, ?_, ?_,
    msOf_nonneg s, msOf_le_1000 s⟩, msOf_edge, ?_⟩
  · rw [padInt_of_nonneg 2 _ (minutesOf_nonneg s)]
    have hm := minutesOf_lt s
    have hm0 := minutesOf_nonneg s
    have hn : (minutesOf s).toNat < 100 := by omega
    exact (pad2_spec _ hn).1
  · rw [padInt_of_nonneg 2 _ (secOf_nonneg s)]
    have hs := secOf_lt s
    have hs0 := secOf_nonneg s
    have hn : (secOf s).toNat < 100 := by omega
    exact (pad2_spec _ hn).1
  · intro n
    unfold hoursOf
    rw [mul_div_cancel_right₀ _ (by norm_num : (3600:ℚ) ≠ 0)]
    exact Int.floor_natCast n

/-- Witness for C10 at input 0. -/
theorem format_time_field_bounds_witness :
    ((0 ≤ minutesOf 0 ∧ minutesOf 0 < 60 ∧ 0 ≤ secOf 0 ∧ secOf 0 < 60 ∧
      (padInt 2 (minutesOf 0)).length = 2 ∧ (padInt 2 (secOf 0)).length = 2 ∧
      0 ≤ msOf 0 ∧ msOf 0 ≤ 1000) ∧
    msOf (59.9996 : ℚ) = 1000 ∧
    (∀ n : ℕ, hoursOf ((n : ℚ) * 3600) = (n : ℤ))) :=
  format_time_field_bounds 0 (le_refl 0)

end Pipeline
